import Mathlib

/-!
Shallow embedding of the SupaGEEK STL upload service (two variants:
`src/index.js`, the OAuth variant, and `src/unnamed/part_000`, the
service-account variant).  Remote Google Drive calls are modelled by an
environment that fixes the outcome (success value or thrown error message)
of each call; handlers are pure functions from the request, a clock and
that environment to an HTTP response paired with the ordered log of remote
calls they issued.
-/

/-- Outcome of one awaited remote Drive call: the resolved value, or the
`message` of the error it threw. -/
inductive CallResult (α : Type) where
  | ok (val : α)
  | err (msg : String)
deriving DecidableEq

/-- True when the call succeeded. -/
def CallResult.isOk {α : Type} : CallResult α → Bool
  | .ok _ => true
  | .err _ => false

/-- The fields of `file.data` returned by `drive.files.create`. -/
structure DriveFile where
  id : String
  name : String
deriving DecidableEq

/-- The fields of `fileInfo.data` returned by `drive.files.get`. -/
structure FileInfo where
  webViewLink : String
  webContentLink : String
deriving DecidableEq

/-- Outcomes of the three per-file remote calls the handlers issue for one
file: `drive.files.create` (upload), `drive.permissions.create`,
`drive.files.get` (metadata). -/
structure FileEnv where
  upload : CallResult DriveFile
  perm : CallResult Unit
  meta : CallResult FileInfo
deriving DecidableEq

/-- All three per-file calls succeed. -/
def FileEnv.allOk (e : FileEnv) : Bool :=
  e.upload.isOk && e.perm.isOk && e.meta.isOk

/-- Exactly one of the three per-file calls fails. -/
def FileEnv.oneFailure (e : FileEnv) : Bool :=
  (!e.upload.isOk && e.perm.isOk && e.meta.isOk) ||
  (e.upload.isOk && !e.perm.isOk && e.meta.isOk) ||
  (e.upload.isOk && e.perm.isOk && !e.meta.isOk)

/-- Environment for the single-upload handler: folder creation plus the
three per-file calls. -/
structure UploadEnv where
  createFolder : CallResult String
  upload : CallResult DriveFile
  perm : CallResult Unit
  meta : CallResult FileInfo

/-- Environment for a batch handler: folder creation, the per-file calls of
the file at each input position, and (service-account variant only) the
final `drive.files.get` on the destination folder. -/
structure BatchEnv where
  createFolder : CallResult String
  fileEnvs : Nat → FileEnv
  folderGet : CallResult String

/-- Configuration taken from the environment: `GOOGLE_DRIVE_FOLDER_ID`. -/
structure Config where
  folderId : String
deriving DecidableEq

/-- The `new Date()` observations the handlers make (`getMonth` is the raw
zero-based JS value). -/
structure Clock where
  year : Nat
  month : Nat
  day : Nat
  hours : Nat
  minutes : Nat

/-- One entry of the batch request's `files` array; a field is `none` when
absent (JS `undefined`). -/
structure FileEntry where
  fileName : Option String
  fileData : Option String
deriving DecidableEq

/-- Body of a `POST /upload` request. -/
structure UploadRequest where
  fileName : Option String
  fileData : Option String
  customerName : Option String
  customerEmail : Option String

/-- The `files` field of a batch request body: absent or otherwise falsy,
present but not an array, or an actual array. -/
inductive JSFiles where
  | missing
  | nonArray
  | arr (files : List FileEntry)
deriving DecidableEq

/-- Body of a `POST /upload-batch` request. -/
structure BatchRequest where
  files : JSFiles
  customerName : Option String
  customerEmail : Option String

/-- One per-file result pushed onto `results`; `none` fields are absent in
the corresponding JS object. -/
structure FileResult where
  success : Bool
  fileName : Option String
  viewLink : Option String
  downloadLink : Option String
  error : Option String
deriving DecidableEq

/-- Successful `POST /upload` response body. -/
structure SingleResponse where
  success : Bool
  fileId : String
  fileName : String
  viewLink : String
  downloadLink : String
deriving DecidableEq

/-- Successful `POST /upload-batch` response body. -/
structure BatchResponse where
  success : Bool
  folderLink : String
  files : List FileResult
deriving DecidableEq

/-- HTTP responses the two routes produce. -/
inductive Response where
  | badRequest (error : String)
  | serverError (error : String)
  | okSingle (body : SingleResponse)
  | okBatch (body : BatchResponse)
deriving DecidableEq

/-- HTTP status code of a response. -/
def Response.status : Response → Nat
  | .badRequest _ => 400
  | .serverError _ => 500
  | .okSingle _ => 200
  | .okBatch _ => 200

/-- A remote Drive call as issued by a handler, with the arguments the
claims are about. -/
inductive RemoteCall where
  | createFolder (name parent : String)
  | createFile (name parent : String) (content : List Nat)
  | createPermission (fileId : String)
  | getFile (fileId : String)
deriving DecidableEq

/-- JS truthiness of a possibly-absent string field (`undefined` and `""`
are falsy). -/
def truthy : Option String → Bool
  | none => false
  | some s => !(s == "")

/-- JS `x || d` for a string `x` (empty string is falsy). -/
def jsOr (s d : String) : String :=
  if s == "" then d else s

/-- JS `x || d` for a possibly-absent string field. -/
def jsOrOpt : Option String → String → String
  | none, d => d
  | some s, d => jsOr s d

/-- Node `Buffer.from(_, 'base64')` character table: the base64 and
base64url alphabets; other characters are not decoded. -/
def unbase64 (c : Char) : Option Nat :=
  if 'A' ≤ c ∧ c ≤ 'Z' then some (c.toNat - 65)
  else if 'a' ≤ c ∧ c ≤ 'z' then some (c.toNat - 97 + 26)
  else if '0' ≤ c ∧ c ≤ '9' then some (c.toNat - 48 + 52)
  else if c = '+' ∨ c = '-' then some 62
  else if c = '/' ∨ c = '_' then some 63
  else none

/-- The sextet stream Node's base64 decoder extracts: characters outside
the alphabet are skipped, `'='` stops decoding. -/
def base64Sextets : List Char → List Nat
  | [] => []
  | c :: cs =>
    if c = '=' then []
    else
      match unbase64 c with
      | some v => v :: base64Sextets cs
      | none => base64Sextets cs

/-- Repack a sextet stream into bytes, three per group of four, with the
standard handling of a 2- or 3-sextet tail. -/
def sextetsToBytes : List Nat → List Nat
  | a :: b :: c :: d :: rest =>
    (a * 4 + b / 16) :: ((b % 16) * 16 + c / 4) :: ((c % 4) * 64 + d) :: sextetsToBytes rest
  | [a, b] => [a * 4 + b / 16]
  | [a, b, c] => [a * 4 + b / 16, (b % 16) * 16 + c / 4]
  | _ => []

/-- Embedding of `Buffer.from(s, 'base64')`: the byte sequence Node decodes
from `s`. -/
def bufferFromBase64 (s : List Char) : List Nat :=
  sextetsToBytes (base64Sextets s)

/-- Embedding of JS `String.prototype.split(',')`. -/
def jsSplitComma : List Char → List (List Char)
  | [] => [[]]
  | c :: cs =>
    if c = ',' then [] :: jsSplitComma cs
    else
      match jsSplitComma cs with
      | [] => [[c]]
      | p :: ps => (c :: p) :: ps

/-- Embedding of the OAuth batch route's data-URL stripping
(`fileData.includes(',') ? fileData.split(',')[1] : fileData`). -/
def oauthBase64Data (data : List Char) : List Char :=
  if data.contains ',' then (jsSplitComma data).getD 1 [] else data

/-- Allow-set of the `/upload` folder-name regex `[^a-zA-Z0-9_@.-]`. -/
def allowedUpload (c : Char) : Bool :=
  ('a' ≤ c && c ≤ 'z') || ('A' ≤ c && c ≤ 'Z') || ('0' ≤ c && c ≤ '9') ||
  (c == '_') || (c == '@') || (c == '.') || (c == '-')

/-- Allow-set of the OAuth batch route's regex `[^a-zA-Z0-9]`. -/
def allowedBatch (c : Char) : Bool :=
  ('a' ≤ c && c ≤ 'z') || ('A' ≤ c && c ≤ 'Z') || ('0' ≤ c && c ≤ '9')

/-- Embedding of `.replace(/[^a-zA-Z0-9_@.-]/g, '_')`. -/
def sanitizeUpload (s : String) : String :=
  ⟨s.data.map fun c => if allowedUpload c then c else '_'⟩

/-- Embedding of `.replace(/[^a-zA-Z0-9]/g, '_')`. -/
def sanitizeBatch (s : String) : String :=
  ⟨s.data.map fun c => if allowedBatch c then c else '_'⟩

/-- Embedding of `String(n).padStart(2, '0')`. -/
def padStart2 (s : String) : String :=
  ⟨List.replicate (2 - s.length) '0' ++ s.data⟩

/-- Decimal rendering of a JS number observation padded to two digits. -/
def pad2 (n : Nat) : String :=
  padStart2 (Nat.repr n)

/-- Embedding of the handlers' `dateStr` template literal. -/
def dateStr (c : Clock) : String :=
  Nat.repr c.year ++ "-" ++ pad2 (c.month + 1) ++ "-" ++ pad2 c.day

/-- Embedding of the handlers' `timeStr` template literal. -/
def timeStr (c : Clock) : String :=
  pad2 c.hours ++ pad2 c.minutes

/-- Folder name derived by `/upload` (both variants) and by the
service-account batch route: the whole concatenation is sanitized. -/
def folderNameUpload (clk : Clock) (customerName : Option String) : String :=
  sanitizeUpload (dateStr clk ++ "_" ++ timeStr clk ++ "_" ++ jsOrOpt customerName "Unknown")

/-- Folder name derived by the OAuth batch route: only the customer name is
sanitized, with the narrower allow-set. -/
def folderNameBatch (clk : Clock) (customerName : Option String) : String :=
  dateStr clk ++ "_" ++ timeStr clk ++ "_" ++ sanitizeBatch (jsOrOpt customerName "Unknown")

/-- The destination-folder id after the guarded folder creation: the new
folder's id, or the configured parent on failure. -/
def customerFolderId (cfg : Config) (c : CallResult String) : String :=
  match c with
  | .ok id => id
  | .err _ => cfg.folderId

/-- A batch entry passes the skip guard `if (!fileName || !fileData) continue`. -/
def validEntry (f : FileEntry) : Bool :=
  truthy f.fileName && truthy f.fileData

/-- One iteration of the OAuth batch loop (`src/index.js` lines 185-245):
strip a data-URL prefix, decode, upload, grant permission, fetch links;
any thrown error becomes a per-file failure result.  Returns the result
pushed (or `none` on skip) and the remote calls issued. -/
def oauthProcessFile (folderId : String) (e : FileEnv) (f : FileEntry) :
    Option FileResult × List RemoteCall :=
  if truthy f.fileName && truthy f.fileData then
    let fileName := f.fileName.getD ""
    let buffer := bufferFromBase64 (oauthBase64Data (f.fileData.getD "").data)
    let c1 := RemoteCall.createFile fileName folderId buffer
    match e.upload with
    | .err m => (some ⟨false, f.fileName, none, none, some m⟩, [c1])
    | .ok file =>
      match e.perm with
      | .err m => (some ⟨false, f.fileName, none, none, some m⟩, [c1, .createPermission file.id])
      | .ok _ =>
        match e.meta with
        | .err m =>
          (some ⟨false, f.fileName, none, none, some m⟩,
           [c1, .createPermission file.id, .getFile file.id])
        | .ok info =>
          (some ⟨true, some file.name, some info.webViewLink, some info.webContentLink, none⟩,
           [c1, .createPermission file.id, .getFile file.id])
  else (none, [])

/-- One iteration of the service-account batch loop (`src/unnamed/part_000`
lines 141-195): same shape, but the payload is decoded without stripping and
the success result carries no download link. -/
def saProcessFile (folderId : String) (e : FileEnv) (f : FileEntry) :
    Option FileResult × List RemoteCall :=
  if truthy f.fileName && truthy f.fileData then
    let fileName := f.fileName.getD ""
    let buffer := bufferFromBase64 (f.fileData.getD "").data
    let c1 := RemoteCall.createFile fileName folderId buffer
    match e.upload with
    | .err m => (some ⟨false, f.fileName, none, none, some m⟩, [c1])
    | .ok file =>
      match e.perm with
      | .err m => (some ⟨false, f.fileName, none, none, some m⟩, [c1, .createPermission file.id])
      | .ok _ =>
        match e.meta with
        | .err m =>
          (some ⟨false, f.fileName, none, none, some m⟩,
           [c1, .createPermission file.id, .getFile file.id])
        | .ok info =>
          (some ⟨true, some file.name, some info.webViewLink, none, none⟩,
           [c1, .createPermission file.id, .getFile file.id])
  else (none, [])

/-- The sequential `for (const fileObj of files)` loop: `step i f` is the
iteration on the file at input position `i`; results are accumulated in
order, calls are concatenated in order. -/
def batchLoop (step : Nat → FileEntry → Option FileResult × List RemoteCall) :
    Nat → List FileEntry → List FileResult × List RemoteCall
  | _, [] => ([], [])
  | i, f :: fs =>
    let pr := step i f
    let rest := batchLoop step (i + 1) fs
    ((match pr.1 with
      | none => rest.1
      | some r => r :: rest.1), pr.2 ++ rest.2)

/-- The `POST /upload` handler, identical in both variants (`src/index.js`
lines 72-148, `src/unnamed/part_000` lines 31-107). -/
def uploadHandler (cfg : Config) (clk : Clock) (env : UploadEnv) (req : UploadRequest) :
    Response × List RemoteCall :=
  if !truthy req.fileName || !truthy req.fileData then
    (.badRequest "Missing fileName or fileData", [])
  else
    let buffer := bufferFromBase64 (req.fileData.getD "").data
    let folderName := folderNameUpload clk req.customerName
    let folderId := customerFolderId cfg env.createFolder
    let c0 := RemoteCall.createFolder folderName cfg.folderId
    let c1 := RemoteCall.createFile (req.fileName.getD "") folderId buffer
    match env.upload with
    | .err m => (.serverError (jsOr m "Upload failed"), [c0, c1])
    | .ok file =>
      match env.perm with
      | .err m => (.serverError (jsOr m "Upload failed"), [c0, c1, .createPermission file.id])
      | .ok _ =>
        match env.meta with
        | .err m =>
          (.serverError (jsOr m "Upload failed"),
           [c0, c1, .createPermission file.id, .getFile file.id])
        | .ok info =>
          (.okSingle ⟨true, file.id, file.name, info.webViewLink, info.webContentLink⟩,
           [c0, c1, .createPermission file.id, .getFile file.id])

/-- The OAuth variant's `POST /upload-batch` handler (`src/index.js` lines
151-257): after the loop the response is assembled locally, with the folder
link built from the configured `FOLDER_ID`. -/
def oauthUploadBatch (cfg : Config) (clk : Clock) (env : BatchEnv) (req : BatchRequest) :
    Response × List RemoteCall :=
  match req.files with
  | .missing => (.badRequest "No files provided", [])
  | .nonArray => (.badRequest "No files provided", [])
  | .arr files =>
    if files.length == 0 then (.badRequest "No files provided", [])
    else
      let folderName := folderNameBatch clk req.customerName
      let uploadFolderId := customerFolderId cfg env.createFolder
      let pr := batchLoop (fun i f => oauthProcessFile uploadFolderId (env.fileEnvs i) f) 0 files
      (.okBatch ⟨true, "https://drive.google.com/drive/folders/" ++ cfg.folderId, pr.1⟩,
       .createFolder folderName cfg.folderId :: pr.2)

/-- The service-account variant's `POST /upload-batch` handler
(`src/unnamed/part_000` lines 110-212): after the loop it fetches the
destination folder's metadata; a failure there is caught only by the
handler-level catch and yields a 500. -/
def saUploadBatch (cfg : Config) (clk : Clock) (env : BatchEnv) (req : BatchRequest) :
    Response × List RemoteCall :=
  match req.files with
  | .missing => (.badRequest "No files provided", [])
  | .nonArray => (.badRequest "No files provided", [])
  | .arr files =>
    if files.length == 0 then (.badRequest "No files provided", [])
    else
      let folderName := folderNameUpload clk req.customerName
      let folderId := customerFolderId cfg env.createFolder
      let pr := batchLoop (fun i f => saProcessFile folderId (env.fileEnvs i) f) 0 files
      let calls := RemoteCall.createFolder folderName cfg.folderId :: (pr.2 ++ [.getFile folderId])
      match env.folderGet with
      | .err m => (.serverError (jsOr m "Batch upload failed"), calls)
      | .ok link => (.okBatch ⟨true, link, pr.1⟩, calls)

theorem jsSplitComma_no_comma (l : List Char) (h : ',' ∉ l) : jsSplitComma l = [l] := by
  induction l with
  | nil => rfl
  | cons c cs ih =>
    have hc : c ≠ ',' := fun hc => h (hc ▸ List.mem_cons_self c cs)
    have hcs : ',' ∉ cs := fun hm => h (List.mem_cons_of_mem c hm)
    simp [jsSplitComma, hc, ih hcs]

theorem jsSplitComma_append (q rest : List Char) (h : ',' ∉ q) :
    jsSplitComma (q ++ ',' :: rest) = q :: jsSplitComma rest := by
  induction q with
  | nil => simp [jsSplitComma]
  | cons c cs ih =>
    have hc : c ≠ ',' := fun hc => h (hc ▸ List.mem_cons_self c cs)
    have hcs : ',' ∉ cs := fun hm => h (List.mem_cons_of_mem c hm)
    simp [jsSplitComma, hc, ih hcs]

theorem oauthBase64Data_strip (q s : List Char) (hq : ',' ∉ q) (hs : ',' ∉ s) :
    oauthBase64Data (q ++ ',' :: s) = s := by
  have hmem : ',' ∈ q ++ ',' :: s := List.mem_append_right q (List.mem_cons_self ',' s)
  have hcontains : (q ++ ',' :: s).contains ',' = true := List.elem_eq_true_of_mem hmem
  rw [oauthBase64Data, if_pos hcontains, jsSplitComma_append q s hq,
    jsSplitComma_no_comma s hs]
  rfl

theorem string_eq_of_data {a b : String} (h : a.data = b.data) : a = b := by
  cases a
  cases b
  rw [show ∀ x y : List Char, String.mk x = String.mk y ↔ x = y from fun x y =>
    ⟨fun hxy => by injection hxy, fun hxy => hxy ▸ rfl⟩]
  exact h

theorem digitChar_allowed (m : Nat) (h : m < 10) :
    allowedUpload (Nat.digitChar m) = true := by
  interval_cases m <;> decide

theorem toDigitsCore_allowed (fuel : Nat) :
    ∀ (n : Nat) (ds : List Char), (∀ c ∈ ds, allowedUpload c = true) →
      ∀ c ∈ Nat.toDigitsCore 10 fuel n ds, allowedUpload c = true := by
  induction fuel with
  | zero =>
    intro n ds hds c hc
    exact hds c hc
  | succ fuel ih =>
    intro n ds hds c hc
    have hd : ∀ x ∈ Nat.digitChar (n % 10) :: ds, allowedUpload x = true := by
      intro x hx
      rcases List.mem_cons.mp hx with hx | hx
      · exact hx ▸ digitChar_allowed (n % 10) (Nat.mod_lt n (by decide))
      · exact hds x hx
    rw [Nat.toDigitsCore] at hc
    by_cases hz : n / 10 = 0
    · rw [if_pos hz] at hc
      exact hd c hc
    · rw [if_neg hz] at hc
      exact ih (n / 10) (Nat.digitChar (n % 10) :: ds) hd c hc

theorem repr_allowed (n : Nat) : ∀ c ∈ (Nat.repr n).data, allowedUpload c = true := by
  have h : (Nat.repr n).data = Nat.toDigitsCore 10 (n + 1) n [] := rfl
  rw [h]
  exact toDigitsCore_allowed (n + 1) n [] (by intro c hc; cases hc)

theorem map_id_of_mem {α : Type} (f : α → α) :
    ∀ l : List α, (∀ x ∈ l, f x = x) → l.map f = l := by
  intro l
  induction l with
  | nil => intro _; rfl
  | cons a as ih =>
    intro h
    simp only [List.map_cons, h a (List.mem_cons_self a as),
      ih fun x hx => h x (List.mem_cons_of_mem a hx)]

theorem sanitizeUpload_eq_self (s : String) (h : ∀ c ∈ s.data, allowedUpload c = true) :
    sanitizeUpload s = s := by
  apply string_eq_of_data
  show s.data.map _ = s.data
  exact map_id_of_mem _ s.data fun c hc => by simp [h c hc]

theorem sanitizeUpload_append (a b : String) :
    sanitizeUpload (a ++ b) = sanitizeUpload a ++ sanitizeUpload b := by
  apply string_eq_of_data
  show (a ++ b).data.map _ = _
  simp [String.data_append, sanitizeUpload]

theorem allowed_append (a b : String) (ha : ∀ c ∈ a.data, allowedUpload c = true)
    (hb : ∀ c ∈ b.data, allowedUpload c = true) :
    ∀ c ∈ (a ++ b).data, allowedUpload c = true := by
  intro c hc
  rw [String.data_append] at hc
  rcases List.mem_append.mp hc with h | h
  · exact ha c h
  · exact hb c h

theorem dash_allowed : ∀ c ∈ ("-" : String).data, allowedUpload c = true := by decide

theorem underscore_allowed : ∀ c ∈ ("_" : String).data, allowedUpload c = true := by decide

theorem pad2_allowed (n : Nat) : ∀ c ∈ (pad2 n).data, allowedUpload c = true := by
  intro c hc
  have h : (pad2 n).data = List.replicate (2 - (Nat.repr n).length) '0' ++ (Nat.repr n).data :=
    rfl
  rw [h] at hc
  rcases List.mem_append.mp hc with hc | hc
  · rw [List.eq_of_mem_replicate hc]
    decide
  · exact repr_allowed n c hc

theorem dateStr_allowed (clk : Clock) : ∀ c ∈ (dateStr clk).data, allowedUpload c = true :=
  allowed_append _ _
    (allowed_append _ _
      (allowed_append _ _ (allowed_append _ _ (repr_allowed clk.year) dash_allowed)
        (pad2_allowed (clk.month + 1)))
      dash_allowed)
    (pad2_allowed clk.day)

theorem timeStr_allowed (clk : Clock) : ∀ c ∈ (timeStr clk).data, allowedUpload c = true :=
  allowed_append _ _ (pad2_allowed clk.hours) (pad2_allowed clk.minutes)

theorem folderNameUpload_eq (clk : Clock) (name : Option String) :
    folderNameUpload clk name =
      dateStr clk ++ "_" ++ timeStr clk ++ "_" ++ sanitizeUpload (jsOrOpt name "Unknown") := by
  rw [folderNameUpload, sanitizeUpload_append, sanitizeUpload_append, sanitizeUpload_append,
    sanitizeUpload_append, sanitizeUpload_eq_self _ (dateStr_allowed clk),
    sanitizeUpload_eq_self _ (timeStr_allowed clk),
    sanitizeUpload_eq_self "_" underscore_allowed]

theorem batchLoop_length (step : Nat → FileEntry → Option FileResult × List RemoteCall)
    (p : FileEntry → Bool) :
    ∀ (fs : List FileEntry) (i : Nat), (∀ j f, f ∈ fs → ((step j f).1).isSome = p f) →
      (batchLoop step i fs).1.length = fs.countP p := by
  intro fs
  induction fs with
  | nil => intro i _; rfl
  | cons f fs ih =>
    intro i hstep
    have htail : ∀ j g, g ∈ fs → ((step j g).1).isSome = p g :=
      fun j g hg => hstep j g (List.mem_cons_of_mem f hg)
    have hlen := ih (i + 1) htail
    have hhead := hstep i f (List.mem_cons_self f fs)
    rcases hsome : (step i f).1 with _ | r
    · rw [hsome] at hhead
      have hp : p f = false := by simpa using hhead.symm
      simp only [batchLoop, hsome, List.countP_cons, hp]
      simpa using hlen
    · rw [hsome] at hhead
      have hp : p f = true := by simpa using hhead.symm
      simp only [batchLoop, hsome, List.length_cons, List.countP_cons, hp, if_true]
      omega

theorem batchLoop_getElem (step : Nat → FileEntry → Option FileResult × List RemoteCall) :
    ∀ (fs : List FileEntry), (∀ j f, f ∈ fs → ((step j f).1).isSome = true) →
      ∀ (i k : Nat) (f : FileEntry), fs[k]? = some f →
        ((batchLoop step i fs).1)[k]? = (step (i + k) f).1 := by
  intro fs
  induction fs with
  | nil =>
    intro _ i k f hk
    simp at hk
  | cons g gs ih =>
    intro hstep i k f hk
    have hg := hstep i g (List.mem_cons_self g gs)
    rcases hsome : (step i g).1 with _ | r
    · rw [hsome] at hg
      simp at hg
    · cases k with
      | zero =>
        have hf : g = f := by simpa using hk
        subst hf
        simp only [batchLoop, hsome, List.getElem?_cons_zero, Nat.add_zero, hsome]
      | succ k =>
        have hk' : gs[k]? = some f := by simpa using hk
        have htail : ∀ j h, h ∈ gs → ((step j h).1).isSome = true :=
          fun j h hh => hstep j h (List.mem_cons_of_mem g hh)
        have hrec := ih htail (i + 1) k f hk'
        have harith : i + 1 + k = i + (k + 1) := by omega
        rw [harith] at hrec
        simp only [batchLoop, hsome, List.getElem?_cons_succ]
        exact hrec

theorem batchLoop_calls_mem (step : Nat → FileEntry → Option FileResult × List RemoteCall) :
    ∀ (fs : List FileEntry) (i k : Nat) (f : FileEntry) (c : RemoteCall),
      fs[k]? = some f → c ∈ (step (i + k) f).2 → c ∈ (batchLoop step i fs).2 := by
  intro fs
  induction fs with
  | nil =>
    intro i k f c hk _
    simp at hk
  | cons g gs ih =>
    intro i k f c hk hc
    cases k with
    | zero =>
      have hf : g = f := by simpa using hk
      subst hf
      simp only [batchLoop]
      exact List.mem_append_left _ (by simpa using hc)
    | succ k =>
      have hk' : gs[k]? = some f := by simpa using hk
      have hc' : c ∈ (step (i + 1 + k) f).2 := by
        have harith : i + 1 + k = i + (k + 1) := by omega
        rw [harith]
        exact hc
      simp only [batchLoop]
      exact List.mem_append_right _ (ih (i + 1) k f c hk' hc')

theorem oauthProcessFile_isSome (fid : String) (e : FileEnv) (f : FileEntry) :
    ((oauthProcessFile fid e f).1).isSome = validEntry f := by
  rcases e with ⟨u, p, m⟩
  cases hv : truthy f.fileName && truthy f.fileData <;> cases u <;> cases p <;> cases m <;>
    simp [oauthProcessFile, validEntry, hv]

theorem saProcessFile_isSome (fid : String) (e : FileEnv) (f : FileEntry) :
    ((saProcessFile fid e f).1).isSome = validEntry f := by
  rcases e with ⟨u, p, m⟩
  cases hv : truthy f.fileName && truthy f.fileData <;> cases u <;> cases p <;> cases m <;>
    simp [saProcessFile, validEntry, hv]

theorem oauthProcessFile_spec (fid : String) (e : FileEnv) (f : FileEntry)
    (hv : validEntry f = true) :
    ∀ r, (oauthProcessFile fid e f).1 = some r →
      r.success = e.allOk ∧
      (e.allOk = false → r.error.isSome = true ∧ r.fileName = f.fileName) := by
  intro r hr
  have hv' : (truthy f.fileName && truthy f.fileData) = true := hv
  rcases e with ⟨u, p, m⟩
  cases u <;> cases p <;> cases m <;>
    · simp only [oauthProcessFile, hv', if_true] at hr
      injection hr with hr
      subst hr
      simp [FileEnv.allOk, CallResult.isOk]

theorem saProcessFile_spec (fid : String) (e : FileEnv) (f : FileEntry)
    (hv : validEntry f = true) :
    ∀ r, (saProcessFile fid e f).1 = some r →
      r.success = e.allOk ∧
      (e.allOk = false → r.error.isSome = true ∧ r.fileName = f.fileName) := by
  intro r hr
  have hv' : (truthy f.fileName && truthy f.fileData) = true := hv
  rcases e with ⟨u, p, m⟩
  cases u <;> cases p <;> cases m <;>
    · simp only [saProcessFile, hv', if_true] at hr
      injection hr with hr
      subst hr
      simp [FileEnv.allOk, CallResult.isOk]

theorem oneFailure_not_allOk (e : FileEnv) (h : e.oneFailure = true) : e.allOk = false := by
  rcases e with ⟨u, p, m⟩
  cases u <;> cases p <;> cases m <;>
    simp_all [FileEnv.oneFailure, FileEnv.allOk, CallResult.isOk]

/-- Example configuration used by concrete instances. -/
def cfgEx : Config := ⟨"FOLDER0"⟩

/-- Example clock used by concrete instances. -/
def clkEx : Clock := ⟨2024, 0, 5, 14, 30⟩

/-- Example file metadata returned by the mocked `drive.files.get`. -/
def infoEx : FileInfo := ⟨"viewL", "dlL"⟩

/-- Example `file.data` returned by the mocked `drive.files.create`. -/
def fileEx : DriveFile := ⟨"fid1", "srv.stl"⟩

/-- A per-file environment in which all three calls succeed. -/
def okFileEnv : FileEnv := ⟨.ok fileEx, .ok (), .ok infoEx⟩

/-- A per-file environment in which the upload call fails. -/
def errFileEnv : FileEnv := ⟨.err "boom", .ok (), .ok infoEx⟩

/-- A single-upload environment in which every call succeeds. -/
def uenvEx : UploadEnv := ⟨.ok "NEWFOLDER", .ok fileEx, .ok (), .ok infoEx⟩

/-- Claim C5: for every fixed clock and customer name, the `/upload`
folder name is the concatenation of the local date `YYYY-MM-DD`, the time
`HHMM` and the customer name (defaulting to "Unknown") with every character
outside the allow-set replaced by an underscore; in particular customer
name "Jo/hn" yields the segment "Jo_hn". -/
theorem c5_folder_name_derivation (clk : Clock) (name : Option String) :
    folderNameUpload clk name =
      dateStr clk ++ "_" ++ timeStr clk ++ "_" ++ sanitizeUpload (jsOrOpt name "Unknown") ∧
    sanitizeUpload "Jo/hn" = "Jo_hn" ∧
    "Jo_hn".data <:+: (folderNameUpload clk (some "Jo/hn")).data := by
  refine ⟨folderNameUpload_eq clk name, by decide, ?_⟩
  rw [folderNameUpload_eq clk (some "Jo/hn"),
    show sanitizeUpload (jsOrOpt (some "Jo/hn") "Unknown") = "Jo_hn" by decide]
  apply List.IsSuffix.isInfix
  refine ⟨(dateStr clk ++ "_" ++ timeStr clk ++ "_").data, ?_⟩
  simp [String.data_append]

/-- Claim C6: a single-upload request with a missing or falsy `fileName`
or `fileData` gets a 400 response with an error message, and no remote
storage call is performed. -/
theorem c6_upload_missing_fields_rejected (cfg : Config) (clk : Clock) (env : UploadEnv)
    (req : UploadRequest) (h : (!truthy req.fileName || !truthy req.fileData) = true) :
    uploadHandler cfg clk env req = (.badRequest "Missing fileName or fileData", []) ∧
    Response.status (uploadHandler cfg clk env req).1 = 400 := by
  have hmain : uploadHandler cfg clk env req = (.badRequest "Missing fileName or fileData", []) := by
    simp [uploadHandler, h]
  exact ⟨hmain, by rw [hmain]; rfl⟩

/-- Witness for C6 at a concrete request with no `fileName`. -/
theorem c6_upload_missing_fields_rejected_witness :
    (!truthy (none : Option String) || !truthy (some "QQ==")) = true ∧
    uploadHandler cfgEx clkEx uenvEx ⟨none, some "QQ==", some "Jane", none⟩ =
      (.badRequest "Missing fileName or fileData", []) ∧
    Response.status (uploadHandler cfgEx clkEx uenvEx ⟨none, some "QQ==", some "Jane", none⟩).1 = 400 := by
  refine ⟨by decide, ?_, ?_⟩
  · exact (c6_upload_missing_fields_rejected cfgEx clkEx uenvEx ⟨none, some "QQ==", some "Jane", none⟩ (by decide)).1
  · exact (c6_upload_missing_fields_rejected cfgEx clkEx uenvEx ⟨none, some "QQ==", some "Jane", none⟩ (by decide)).2

/-- Claim C7: a batch request whose `files` field is missing, not an
array, or an empty array gets a 400 response with an error message from
both batch-route variants, and no remote storage call is performed. -/
theorem c7_batch_invalid_files_rejected (cfg : Config) (clk : Clock) (env : BatchEnv)
    (req : BatchRequest)
    (h : req.files = .missing ∨ req.files = .nonArray ∨ req.files = .arr []) :
    oauthUploadBatch cfg clk env req = (.badRequest "No files provided", []) ∧
    saUploadBatch cfg clk env req = (.badRequest "No files provided", []) ∧
    Response.status (oauthUploadBatch cfg clk env req).1 = 400 ∧
    Response.status (saUploadBatch cfg clk env req).1 = 400 := by
  have h1 : oauthUploadBatch cfg clk env req = (.badRequest "No files provided", []) := by
    rcases h with h | h | h <;> simp [oauthUploadBatch, h]
  have h2 : saUploadBatch cfg clk env req = (.badRequest "No files provided", []) := by
    rcases h with h | h | h <;> simp [saUploadBatch, h]
  exact ⟨h1, h2, by rw [h1]; rfl, by rw [h2]; rfl⟩

/-- Witness for C7 at a concrete request with an empty `files` array. -/
theorem c7_batch_invalid_files_rejected_witness :
    oauthUploadBatch cfgEx clkEx ⟨.ok "NEWFOLDER", fun _ => okFileEnv, .ok "lnk"⟩
        ⟨.arr [], none, none⟩ = (.badRequest "No files provided", []) ∧
    saUploadBatch cfgEx clkEx ⟨.ok "NEWFOLDER", fun _ => okFileEnv, .ok "lnk"⟩
        ⟨.arr [], none, none⟩ = (.badRequest "No files provided", []) := by
  have h := c7_batch_invalid_files_rejected cfgEx clkEx
    ⟨.ok "NEWFOLDER", fun _ => okFileEnv, .ok "lnk"⟩ ⟨.arr [], none, none⟩ (Or.inr (Or.inr rfl))
  exact ⟨h.1, h.2.1⟩

/-- Claim C2 (counterexample): the single-upload route passes the raw
`fileData` to the base64 decoder without stripping a data-URL prefix, so
the prefixed payload decodes to different bytes than the raw payload; the
handler therefore uploads different content for the two requests. -/
theorem c2_counterexample :
    bufferFromBase64 ("data:application/octet-stream;base64,AAAA" : String).data ≠
      bufferFromBase64 ("AAAA" : String).data ∧
    (uploadHandler cfgEx clkEx uenvEx
        ⟨some "model.stl", some "data:application/octet-stream;base64,AAAA", none, none⟩).2 ≠
      (uploadHandler cfgEx clkEx uenvEx ⟨some "model.stl", some "AAAA", none, none⟩).2 := by
  constructor
  · decide
  · decide

/-- Claim C2 (amended): only the OAuth batch route strips the data-URL
prefix (everything up to the first comma); for it, a payload `q ++ "," ++ s`
with comma-free `q` and `s` decodes to exactly the bytes of `s`. -/
theorem c2_amended_oauth_strip (q s : String) (hq : ',' ∉ q.data) (hs : ',' ∉ s.data) :
    oauthBase64Data (q ++ "," ++ s).data = s.data ∧
    bufferFromBase64 (oauthBase64Data (q ++ "," ++ s).data) = bufferFromBase64 s.data := by
  have hdata : (q ++ "," ++ s).data = q.data ++ ',' :: s.data := by
    simp [String.data_append]
  rw [hdata, oauthBase64Data_strip q.data s.data hq hs]
  exact ⟨rfl, rfl⟩

/-- Witness for the amended C2 at the spec's example payload. -/
theorem c2_amended_oauth_strip_witness :
    ',' ∉ ("data:application/octet-stream;base64" : String).data ∧
    ',' ∉ ("AAAA" : String).data ∧
    oauthBase64Data (("data:application/octet-stream;base64" : String) ++ "," ++ "AAAA").data =
      ("AAAA" : String).data ∧
    bufferFromBase64
        (oauthBase64Data (("data:application/octet-stream;base64" : String) ++ "," ++ "AAAA").data) =
      bufferFromBase64 ("AAAA" : String).data := by
  have h := c2_amended_oauth_strip "data:application/octet-stream;base64" "AAAA"
    (by decide) (by decide)
  exact ⟨by decide, by decide, h.1, h.2⟩

/-- Batch environment whose per-file calls all succeed but whose final
folder-metadata fetch fails. -/
def benvFolderGetErr : BatchEnv := ⟨.ok "NEWFOLDER", fun _ => okFileEnv, .err "boom"⟩

/-- A one-file batch request with valid fields. -/
def reqOneFile : BatchRequest := ⟨.arr [⟨some "a.stl", some "QUJD"⟩], some "Jane", none⟩

/-- Claim C3 (counterexample): in the service-account variant a batch
request that passes validation, whose single file uploads successfully
(the `createFile` call is in the log), still gets HTTP 500 when the
folder-metadata fetch after the loop fails — a batch-level error reported
after per-file processing began, with the per-file results discarded. -/
theorem c3_counterexample :
    (saUploadBatch cfgEx clkEx benvFolderGetErr reqOneFile).1 = .serverError "boom" ∧
    Response.status (saUploadBatch cfgEx clkEx benvFolderGetErr reqOneFile).1 = 500 ∧
    RemoteCall.createFile "a.stl" "NEWFOLDER" (bufferFromBase64 ("QUJD" : String).data) ∈
      (saUploadBatch cfgEx clkEx benvFolderGetErr reqOneFile).2 := by
  refine ⟨by decide, by decide, by decide⟩

/-- Claim C3 (amended): in the OAuth variant, every batch request that
passes the `files` validation gets HTTP 200 with top-level `success: true`,
the folder link, and the ordered per-file results — even if every per-file
upload failed; only the OAuth variant reports batch-level errors solely
before per-file processing. -/
theorem c3_amended_oauth_always_ok (cfg : Config) (clk : Clock) (env : BatchEnv)
    (req : BatchRequest) (files : List FileEntry)
    (h : req.files = .arr files) (hne : files ≠ []) :
    (oauthUploadBatch cfg clk env req).1 =
      .okBatch ⟨true, "https://drive.google.com/drive/folders/" ++ cfg.folderId,
        (batchLoop (fun i f => oauthProcessFile (customerFolderId cfg env.createFolder)
          (env.fileEnvs i) f) 0 files).1⟩ ∧
    Response.status (oauthUploadBatch cfg clk env req).1 = 200 := by
  have hlen : (files.length == 0) = false := by
    cases files with
    | nil => exact absurd rfl hne
    | cons a l => rfl
  obtain ⟨fl, n, e⟩ := req
  have h' : fl = JSFiles.arr files := h
  subst h'
  have hmain : (oauthUploadBatch cfg clk env ⟨.arr files, n, e⟩).1 =
      .okBatch ⟨true, "https://drive.google.com/drive/folders/" ++ cfg.folderId,
        (batchLoop (fun i f => oauthProcessFile (customerFolderId cfg env.createFolder)
          (env.fileEnvs i) f) 0 files).1⟩ := by
    simp [oauthUploadBatch, hlen]
  exact ⟨hmain, by rw [hmain]; rfl⟩

/-- Witness for the amended C3: a concrete batch whose only file fails to
upload still gets a 200 response with `success: true`. -/
theorem c3_amended_oauth_always_ok_witness :
    (oauthUploadBatch cfgEx clkEx ⟨.ok "NEWFOLDER", fun _ => errFileEnv, .ok "lnk"⟩ reqOneFile).1 =
      .okBatch ⟨true, "https://drive.google.com/drive/folders/" ++ cfgEx.folderId,
        (batchLoop (fun i f => oauthProcessFile
          (customerFolderId cfgEx (BatchEnv.createFolder ⟨.ok "NEWFOLDER", fun _ => errFileEnv, .ok "lnk"⟩))
          (BatchEnv.fileEnvs ⟨.ok "NEWFOLDER", fun _ => errFileEnv, .ok "lnk"⟩ i) f) 0
          [⟨some "a.stl", some "QUJD"⟩]).1⟩ ∧
    Response.status
      (oauthUploadBatch cfgEx clkEx ⟨.ok "NEWFOLDER", fun _ => errFileEnv, .ok "lnk"⟩ reqOneFile).1 = 200 :=
  c3_amended_oauth_always_ok cfgEx clkEx ⟨.ok "NEWFOLDER", fun _ => errFileEnv, .ok "lnk"⟩
    reqOneFile [⟨some "a.stl", some "QUJD"⟩] rfl (by decide)

/-- Claim C9: in the service-account variant, after the per-file loop the
handler fetches the destination folder's metadata with one more remote
call; if that call fails the route returns HTTP 500 carrying only the
error message, discarding every per-file result — even when all files
uploaded successfully. -/
theorem c9_sa_folder_get_failure (cfg : Config) (clk : Clock) (env : BatchEnv)
    (req : BatchRequest) (files : List FileEntry) (m : String)
    (h : req.files = .arr files) (hne : files ≠ [])
    (hg : env.folderGet = .err m) (hm : (m == "") = false)
    (_hall : ∀ i, (env.fileEnvs i).allOk = true) :
    (saUploadBatch cfg clk env req).1 = .serverError m ∧
    Response.status (saUploadBatch cfg clk env req).1 = 500 ∧
    (saUploadBatch cfg clk env req).2 =
      .createFolder (folderNameUpload clk req.customerName) cfg.folderId ::
        ((batchLoop (fun i f => saProcessFile (customerFolderId cfg env.createFolder)
            (env.fileEnvs i) f) 0 files).2 ++
          [.getFile (customerFolderId cfg env.createFolder)]) := by
  have hlen : (files.length == 0) = false := by
    cases files with
    | nil => exact absurd rfl hne
    | cons a l => rfl
  obtain ⟨fl, n, e⟩ := req
  have h' : fl = JSFiles.arr files := h
  subst h'
  refine ⟨?_, ?_, ?_⟩ <;> simp [saUploadBatch, hlen, hg, jsOr, hm, Response.status]

/-- Witness for C9 at a concrete one-file batch. -/
theorem c9_sa_folder_get_failure_witness :
    (saUploadBatch cfgEx clkEx benvFolderGetErr reqOneFile).1 = .serverError "boom" ∧
    Response.status (saUploadBatch cfgEx clkEx benvFolderGetErr reqOneFile).1 = 500 ∧
    (saUploadBatch cfgEx clkEx benvFolderGetErr reqOneFile).2 =
      .createFolder (folderNameUpload clkEx reqOneFile.customerName) cfgEx.folderId ::
        ((batchLoop (fun i f => saProcessFile
            (customerFolderId cfgEx benvFolderGetErr.createFolder)
            (benvFolderGetErr.fileEnvs i) f) 0 [⟨some "a.stl", some "QUJD"⟩]).2 ++
          [.getFile (customerFolderId cfgEx benvFolderGetErr.createFolder)]) :=
  c9_sa_folder_get_failure cfgEx clkEx benvFolderGetErr reqOneFile
    [⟨some "a.stl", some "QUJD"⟩] "boom" rfl (by decide) rfl (by decide) (fun _ => rfl)

/-- Claim C10: the OAuth batch response's `folderLink` is built from the
configured parent `FOLDER_ID`, so it always points at the shared parent
folder and never at a per-batch folder the handler created with a
different id. -/
theorem c10_oauth_folder_link_is_parent (cfg : Config) (clk : Clock) (env : BatchEnv)
    (req : BatchRequest) (files : List FileEntry)
    (h : req.files = .arr files) (hne : files ≠ []) :
    ∃ r, (oauthUploadBatch cfg clk env req).1 = .okBatch r ∧
      r.folderLink = "https://drive.google.com/drive/folders/" ++ cfg.folderId ∧
      ∀ id, env.createFolder = .ok id → id ≠ cfg.folderId →
        r.folderLink ≠ "https://drive.google.com/drive/folders/" ++ id := by
  have hlen : (files.length == 0) = false := by
    cases files with
    | nil => exact absurd rfl hne
    | cons a l => rfl
  obtain ⟨fl, n, e⟩ := req
  have h' : fl = JSFiles.arr files := h
  subst h'
  refine ⟨⟨true, "https://drive.google.com/drive/folders/" ++ cfg.folderId,
    (batchLoop (fun i f => oauthProcessFile (customerFolderId cfg env.createFolder)
      (env.fileEnvs i) f) 0 files).1⟩, by simp [oauthUploadBatch, hlen], rfl, ?_⟩
  intro id _ hid heq
  apply hid
  have hd := congrArg String.data heq
  rw [String.data_append, String.data_append] at hd
  exact (string_eq_of_data (List.append_cancel_left hd)).symm

/-- Witness for C10: concrete batch where the created folder id differs
from the configured parent. -/
theorem c10_oauth_folder_link_is_parent_witness :
    ∃ r, (oauthUploadBatch cfgEx clkEx ⟨.ok "NEWFOLDER", fun _ => okFileEnv, .ok "lnk"⟩
        reqOneFile).1 = .okBatch r ∧
      r.folderLink = "https://drive.google.com/drive/folders/" ++ cfgEx.folderId ∧
      ∀ id, BatchEnv.createFolder ⟨.ok "NEWFOLDER", fun _ => okFileEnv, .ok "lnk"⟩ = .ok id →
        id ≠ cfgEx.folderId →
        r.folderLink ≠ "https://drive.google.com/drive/folders/" ++ id :=
  c10_oauth_folder_link_is_parent cfgEx clkEx ⟨.ok "NEWFOLDER", fun _ => okFileEnv, .ok "lnk"⟩
    reqOneFile [⟨some "a.stl", some "QUJD"⟩] rfl (by decide)

theorem oauthProcessFile_createFile_mem (fid : String) (e : FileEnv) (f : FileEntry)
    (hv : validEntry f = true) :
    RemoteCall.createFile (f.fileName.getD "") fid
        (bufferFromBase64 (oauthBase64Data (f.fileData.getD "").data)) ∈
      (oauthProcessFile fid e f).2 := by
  have hv' : (truthy f.fileName && truthy f.fileData) = true := hv
  rcases e with ⟨u, p, m⟩
  cases u <;> cases p <;> cases m <;> simp [oauthProcessFile, hv']

theorem saProcessFile_createFile_mem (fid : String) (e : FileEnv) (f : FileEntry)
    (hv : validEntry f = true) :
    RemoteCall.createFile (f.fileName.getD "") fid (bufferFromBase64 (f.fileData.getD "").data) ∈
      (saProcessFile fid e f).2 := by
  have hv' : (truthy f.fileName && truthy f.fileData) = true := hv
  rcases e with ⟨u, p, m⟩
  cases u <;> cases p <;> cases m <;> simp [saProcessFile, hv']

/-- Claim C4: when the create-folder call fails, the error is swallowed
and processing continues with the configured parent folder as destination:
the single-upload route and both batch routes still issue the file-upload
call with the configured parent folder as the file's parent. -/
theorem c4_folder_creation_fallback (cfg : Config) (clk : Clock) (m : String) :
    (∀ (env : UploadEnv) (req : UploadRequest), env.createFolder = .err m →
        (!truthy req.fileName || !truthy req.fileData) = false →
        RemoteCall.createFile (req.fileName.getD "") cfg.folderId
            (bufferFromBase64 (req.fileData.getD "").data) ∈ (uploadHandler cfg clk env req).2) ∧
    (∀ (env : BatchEnv) (req : BatchRequest) (files : List FileEntry) (k : Nat) (f : FileEntry),
        req.files = .arr files → env.createFolder = .err m → files[k]? = some f →
        validEntry f = true →
        RemoteCall.createFile (f.fileName.getD "") cfg.folderId
            (bufferFromBase64 (oauthBase64Data (f.fileData.getD "").data)) ∈
          (oauthUploadBatch cfg clk env req).2) ∧
    (∀ (env : BatchEnv) (req : BatchRequest) (files : List FileEntry) (k : Nat) (f : FileEntry),
        req.files = .arr files → env.createFolder = .err m → files[k]? = some f →
        validEntry f = true →
        RemoteCall.createFile (f.fileName.getD "") cfg.folderId
            (bufferFromBase64 (f.fileData.getD "").data) ∈ (saUploadBatch cfg clk env req).2) := by
  refine ⟨?_, ?_, ?_⟩
  · intro env req hcf hv
    rcases env with ⟨cf, u, p, mm⟩
    have hcf' : cf = CallResult.err m := hcf
    subst hcf'
    cases u <;> cases p <;> cases mm <;> simp [uploadHandler, hv, customerFolderId]
  · intro env req files k f h hcf hk hvf
    have hklt : k < files.length := by
      rcases List.getElem?_eq_some.mp hk with ⟨hlt, _⟩
      exact hlt
    have hlen : (files.length == 0) = false := by
      cases files with
      | nil => simp at hklt
      | cons a l => rfl
    obtain ⟨fl, n, e⟩ := req
    have h' : fl = JSFiles.arr files := h
    subst h'
    rcases env with ⟨cf, fe, fg⟩
    have hcf' : cf = CallResult.err m := hcf
    subst hcf'
    have hfid : customerFolderId cfg (CallResult.err m) = cfg.folderId := rfl
    simp only [oauthUploadBatch, hlen, Bool.false_eq_true, if_false, hfid]
    refine List.mem_cons_of_mem _ ?_
    refine batchLoop_calls_mem _ files 0 k f _ hk ?_
    simpa using oauthProcessFile_createFile_mem cfg.folderId (fe k) f hvf
  · intro env req files k f h hcf hk hvf
    have hklt : k < files.length := by
      rcases List.getElem?_eq_some.mp hk with ⟨hlt, _⟩
      exact hlt
    have hlen : (files.length == 0) = false := by
      cases files with
      | nil => simp at hklt
      | cons a l => rfl
    obtain ⟨fl, n, e⟩ := req
    have h' : fl = JSFiles.arr files := h
    subst h'
    rcases env with ⟨cf, fe, fg⟩
    have hcf' : cf = CallResult.err m := hcf
    subst hcf'
    have hfid : customerFolderId cfg (CallResult.err m) = cfg.folderId := rfl
    rcases fg with link | gm <;>
    · simp only [saUploadBatch, hlen, Bool.false_eq_true, if_false, hfid]
      refine List.mem_cons_of_mem _ ?_
      refine List.mem_append_left _ ?_
      refine batchLoop_calls_mem _ files 0 k f _ hk ?_
      simpa using saProcessFile_createFile_mem cfg.folderId (fe k) f hvf

/-- Witness for C4: concrete single and batch requests processed with a
failing create-folder call still upload into the configured parent. -/
theorem c4_folder_creation_fallback_witness :
    RemoteCall.createFile "a.stl" cfgEx.folderId (bufferFromBase64 ("QUJD" : String).data) ∈
      (uploadHandler cfgEx clkEx ⟨.err "boom", .ok fileEx, .ok (), .ok infoEx⟩
        ⟨some "a.stl", some "QUJD", some "Jane", none⟩).2 ∧
    RemoteCall.createFile "a.stl" cfgEx.folderId
        (bufferFromBase64 (oauthBase64Data (("QUJD" : String)).data)) ∈
      (oauthUploadBatch cfgEx clkEx ⟨.err "boom", fun _ => okFileEnv, .ok "lnk"⟩ reqOneFile).2 ∧
    RemoteCall.createFile "a.stl" cfgEx.folderId (bufferFromBase64 ("QUJD" : String).data) ∈
      (saUploadBatch cfgEx clkEx ⟨.err "boom", fun _ => okFileEnv, .ok "lnk"⟩ reqOneFile).2 := by
  refine ⟨?_, ?_, ?_⟩
  · exact (c4_folder_creation_fallback cfgEx clkEx "boom").1
      ⟨.err "boom", .ok fileEx, .ok (), .ok infoEx⟩
      ⟨some "a.stl", some "QUJD", some "Jane", none⟩ rfl (by decide)
  · exact (c4_folder_creation_fallback cfgEx clkEx "boom").2.1
      ⟨.err "boom", fun _ => okFileEnv, .ok "lnk"⟩ reqOneFile
      [⟨some "a.stl", some "QUJD"⟩] 0 ⟨some "a.stl", some "QUJD"⟩ rfl rfl rfl (by decide)
  · exact (c4_folder_creation_fallback cfgEx clkEx "boom").2.2
      ⟨.err "boom", fun _ => okFileEnv, .ok "lnk"⟩ reqOneFile
      [⟨some "a.stl", some "QUJD"⟩] 0 ⟨some "a.stl", some "QUJD"⟩ rfl rfl rfl (by decide)

/-- Claim C8: a batch entry with a missing or falsy `fileName` or
`fileData` is silently skipped — no remote call and no result entry for
it — so the response's `files` array has one entry per valid input entry
and is shorter than the request's `files` array whenever an invalid entry
is present. -/
theorem c8_invalid_entries_skipped (cfg : Config) (clk : Clock) (env : BatchEnv)
    (req : BatchRequest) (files : List FileEntry)
    (h : req.files = .arr files) (hne : files ≠ []) :
    (∀ (fid : String) (e : FileEnv) (f : FileEntry), validEntry f = false →
        oauthProcessFile fid e f = (none, []) ∧ saProcessFile fid e f = (none, [])) ∧
    (∃ r, (oauthUploadBatch cfg clk env req).1 = .okBatch r ∧
        r.files.length = files.countP validEntry) ∧
    (batchLoop (fun i f => saProcessFile (customerFolderId cfg env.createFolder)
        (env.fileEnvs i) f) 0 files).1.length = files.countP validEntry ∧
    ((∃ f ∈ files, validEntry f = false) → files.countP validEntry < files.length) := by
  have hlen : (files.length == 0) = false := by
    cases files with
    | nil => exact absurd rfl hne
    | cons a l => rfl
  refine ⟨?_, ?_, ?_, ?_⟩
  · intro fid e f hv
    have hv' : (truthy f.fileName && truthy f.fileData) = false := hv
    constructor <;> simp [oauthProcessFile, saProcessFile, hv']
  · obtain ⟨fl, n, e⟩ := req
    have h' : fl = JSFiles.arr files := h
    subst h'
    refine ⟨⟨true, "https://drive.google.com/drive/folders/" ++ cfg.folderId,
      (batchLoop (fun i f => oauthProcessFile (customerFolderId cfg env.createFolder)
        (env.fileEnvs i) f) 0 files).1⟩, by simp [oauthUploadBatch, hlen], ?_⟩
    exact batchLoop_length _ validEntry files 0 fun j f _ =>
      oauthProcessFile_isSome (customerFolderId cfg env.createFolder) (env.fileEnvs j) f
  · exact batchLoop_length _ validEntry files 0 fun j f _ =>
      saProcessFile_isSome (customerFolderId cfg env.createFolder) (env.fileEnvs j) f
  · rintro ⟨f, hf, hval⟩
    rcases Nat.lt_or_ge (files.countP validEntry) files.length with hlt | hge
    · exact hlt
    · exfalso
      have heq : files.countP validEntry = files.length :=
        Nat.le_antisymm (List.countP_le_length validEntry) hge
      have := List.countP_eq_length.mp heq f hf
      rw [hval] at this
      exact Bool.false_ne_true this

/-- Witness for C8: a two-entry batch with one invalid entry yields a
one-entry response. -/
theorem c8_invalid_entries_skipped_witness :
    (∃ r, (oauthUploadBatch cfgEx clkEx ⟨.ok "NEWFOLDER", fun _ => okFileEnv, .ok "lnk"⟩
        ⟨.arr [⟨some "a.stl", some "QUJD"⟩, ⟨some "b.stl", none⟩], none, none⟩).1 = .okBatch r ∧
      r.files.length =
        ([⟨some "a.stl", some "QUJD"⟩, ⟨some "b.stl", none⟩] : List FileEntry).countP validEntry) ∧
    ([⟨some "a.stl", some "QUJD"⟩, ⟨some "b.stl", none⟩] : List FileEntry).countP validEntry <
      ([⟨some "a.stl", some "QUJD"⟩, ⟨some "b.stl", none⟩] : List FileEntry).length := by
  have h := c8_invalid_entries_skipped cfgEx clkEx ⟨.ok "NEWFOLDER", fun _ => okFileEnv, .ok "lnk"⟩
    ⟨.arr [⟨some "a.stl", some "QUJD"⟩, ⟨some "b.stl", none⟩], none, none⟩
    [⟨some "a.stl", some "QUJD"⟩, ⟨some "b.stl", none⟩] rfl (by decide)
  exact ⟨h.2.1, h.2.2.2 ⟨⟨some "b.stl", none⟩, by decide, by decide⟩⟩

theorem loop_one_failure (step : Nat → FileEntry → Option FileResult × List RemoteCall)
    (envs : Nat → FileEnv) (files : List FileEntry) (j : Nat)
    (hisSome : ∀ i f, ((step i f).1).isSome = validEntry f)
    (hspec : ∀ i f, validEntry f = true → ∀ r, (step i f).1 = some r →
      r.success = (envs i).allOk ∧
      ((envs i).allOk = false → r.error.isSome = true ∧ r.fileName = f.fileName))
    (hvalid : ∀ f ∈ files, validEntry f = true)
    (hj : j < files.length)
    (hfail : (envs j).oneFailure = true)
    (hok : ∀ i, i < files.length → i ≠ j → (envs i).allOk = true) :
    (batchLoop step 0 files).1.length = files.length ∧
    ∀ k res, ((batchLoop step 0 files).1)[k]? = some res →
      (k ≠ j → res.success = true) ∧
      (k = j → res.success = false ∧ res.error.isSome = true ∧
        ∀ f, files[k]? = some f → res.fileName = f.fileName) := by
  have hcount : files.countP validEntry = files.length :=
    List.countP_eq_length.mpr fun f hf => hvalid f hf
  have hlen : (batchLoop step 0 files).1.length = files.length := by
    rw [batchLoop_length step validEntry files 0 fun i f _ => hisSome i f, hcount]
  refine ⟨hlen, ?_⟩
  intro k res hk
  have hklt : k < files.length := by
    rcases List.getElem?_eq_some.mp hk with ⟨hlt, _⟩
    rw [hlen] at hlt
    exact hlt
  have hfk : files[k]? = some files[k] := List.getElem?_eq_getElem hklt
  have hget := batchLoop_getElem step files
    (fun i f hf => by rw [hisSome i f]; exact hvalid f hf) 0 k files[k] hfk
  rw [hget] at hk
  have hvk : validEntry files[k] = true := hvalid files[k] (List.getElem_mem hklt)
  have hres := hspec (0 + k) files[k] hvk res hk
  rw [Nat.zero_add] at hres
  constructor
  · intro hne
    rw [hres.1, hok k hklt hne]
  · intro hkj
    subst hkj
    have hfalse : (envs k).allOk = false := oneFailure_not_allOk (envs k) hfail
    have h2 := hres.2 hfalse
    refine ⟨by rw [hres.1, hfalse], h2.1, ?_⟩
    intro f hf
    have : f = files[k] := by
      rw [hfk] at hf
      injection hf with hf
      exact hf.symm
    rw [this]
    exact h2.2

/-- Claim C1: for a batch of valid files in which exactly one file's
remote call (upload, permission grant or metadata fetch) fails, the OAuth
batch response carries exactly one result per input file in input order,
with exactly the failing position marked `success: false` together with an
error field and all other positions `success: true`; the service-account
variant's loop produces the same shape.  The failing entry carries the
input's file name. -/
theorem c1_batch_single_failure_isolated (cfg : Config) (clk : Clock) (env : BatchEnv)
    (req : BatchRequest) (files : List FileEntry) (j : Nat)
    (h : req.files = .arr files)
    (hvalid : ∀ f ∈ files, validEntry f = true)
    (hj : j < files.length)
    (hfail : (env.fileEnvs j).oneFailure = true)
    (hok : ∀ i, i < files.length → i ≠ j → (env.fileEnvs i).allOk = true) :
    (∃ r, (oauthUploadBatch cfg clk env req).1 = .okBatch r ∧
      r.files.length = files.length ∧
      ∀ k res, r.files[k]? = some res →
        (k ≠ j → res.success = true) ∧
        (k = j → res.success = false ∧ res.error.isSome = true ∧
          ∀ f, files[k]? = some f → res.fileName = f.fileName)) ∧
    ((batchLoop (fun i f => saProcessFile (customerFolderId cfg env.createFolder)
        (env.fileEnvs i) f) 0 files).1.length = files.length ∧
      ∀ k res, ((batchLoop (fun i f => saProcessFile (customerFolderId cfg env.createFolder)
          (env.fileEnvs i) f) 0 files).1)[k]? = some res →
        (k ≠ j → res.success = true) ∧
        (k = j → res.success = false ∧ res.error.isSome = true ∧
          ∀ f, files[k]? = some f → res.fileName = f.fileName)) := by
  have hne : files ≠ [] := by
    intro hnil
    rw [hnil] at hj
    simp at hj
  have hlen0 : (files.length == 0) = false := by
    cases files with
    | nil => exact absurd rfl hne
    | cons a l => rfl
  constructor
  · obtain ⟨fl, n, e⟩ := req
    have h' : fl = JSFiles.arr files := h
    subst h'
    refine ⟨⟨true, "https://drive.google.com/drive/folders/" ++ cfg.folderId,
      (batchLoop (fun i f => oauthProcessFile (customerFolderId cfg env.createFolder)
        (env.fileEnvs i) f) 0 files).1⟩, by simp [oauthUploadBatch, hlen0], ?_⟩
    exact loop_one_failure _ env.fileEnvs files j
      (fun i f => oauthProcessFile_isSome (customerFolderId cfg env.createFolder)
        (env.fileEnvs i) f)
      (fun i f hv r hr => oauthProcessFile_spec (customerFolderId cfg env.createFolder)
        (env.fileEnvs i) f hv r hr)
      hvalid hj hfail hok
  · exact loop_one_failure _ env.fileEnvs files j
      (fun i f => saProcessFile_isSome (customerFolderId cfg env.createFolder)
        (env.fileEnvs i) f)
      (fun i f hv r hr => saProcessFile_spec (customerFolderId cfg env.createFolder)
        (env.fileEnvs i) f hv r hr)
      hvalid hj hfail hok

/-- Two valid batch entries used by the C1 witness. -/
def filesTwo : List FileEntry := [⟨some "a.stl", some "QUJD"⟩, ⟨some "b.stl", some "QQ=="⟩]

/-- Batch environment where only the first file's upload call fails. -/
def benvFirstFails : BatchEnv :=
  ⟨.ok "NEWFOLDER", fun i => if i = 0 then errFileEnv else okFileEnv, .ok "lnk"⟩

/-- Witness for C1: a concrete two-file batch whose first upload fails. -/
theorem c1_batch_single_failure_isolated_witness :
    (∃ r, (oauthUploadBatch cfgEx clkEx benvFirstFails ⟨.arr filesTwo, some "Jane", none⟩).1 =
        .okBatch r ∧
      r.files.length = filesTwo.length ∧
      ∀ k res, r.files[k]? = some res →
        (k ≠ 0 → res.success = true) ∧
        (k = 0 → res.success = false ∧ res.error.isSome = true ∧
          ∀ f, filesTwo[k]? = some f → res.fileName = f.fileName)) ∧
    ((batchLoop (fun i f => saProcessFile (customerFolderId cfgEx benvFirstFails.createFolder)
        (benvFirstFails.fileEnvs i) f) 0 filesTwo).1.length = filesTwo.length ∧
      ∀ k res, ((batchLoop (fun i f => saProcessFile
          (customerFolderId cfgEx benvFirstFails.createFolder)
          (benvFirstFails.fileEnvs i) f) 0 filesTwo).1)[k]? = some res →
        (k ≠ 0 → res.success = true) ∧
        (k = 0 → res.success = false ∧ res.error.isSome = true ∧
          ∀ f, filesTwo[k]? = some f → res.fileName = f.fileName)) :=
  c1_batch_single_failure_isolated cfgEx clkEx benvFirstFails ⟨.arr filesTwo, some "Jane", none⟩
    filesTwo 0 rfl (by decide) (by decide) (by decide)
    (by
      intro i hi hne
      have hi2 : i < 2 := by simpa [filesTwo] using hi
      interval_cases i
      · exact absurd rfl hne
      · rfl)
